import Mathlib

/-!
Verification of the kubecuro Phase-1 YAML healing pipeline.

The development shallowly embeds the two core source modules,
`src/kubecuro/healing/structurer.py` (the structural repair engine) and
`src/kubecuro/healing/pipeline.py` (the orchestrator), over `List Char`
as the text type.  The external ruamel.yaml engine wrapped by
`validate_and_roundtrip` is not part of the repository; it is modelled as
an explicit parameter `V : Str → Bool × Str` returning, exactly like the
Python method, either `(true, canonicalText)` or
`(false, "STRUCTURE_ERROR:..." message)`.  Python exceptions
(IndexError raised by out-of-range list subscripts, caught at the
orchestrator boundary) are modelled with `Except Str`.

Python string semantics are reproduced for the character set relevant to
the repository (ASCII text plus the common Unicode whitespace):
`str.strip`/`lstrip`/`rstrip` strip the whitespace characters listed in
`pyIsSpace`, `str.splitlines` treats CRLF as a single break and splits on
the characters of `isLineBreak`, and list subscripts accept negative
indices counting from the end.
-/

namespace Kubecuro

/-- Text as Python sees it: a sequence of characters. -/
abbrev Str := List Char

/-- Characters of a Lean string literal, used to write concrete texts. -/
def chars (s : String) : Str := s.data

/-- Whitespace for Python `str.strip` / `\s`: ASCII whitespace plus the
common Unicode whitespace characters. -/
def pyIsSpace (c : Char) : Bool :=
  c == ' ' || c == '\t' || c == '\n' || c == '\r' || c == '\x0b' || c == '\x0c' ||
  c == '\x1c' || c == '\x1d' || c == '\x1e' || c == '\x1f' || c == '\x85' ||
  c == '\xa0' || c == ' ' || c == ' ' || c == '　'

/-- Line-break characters of Python `str.splitlines` (CRLF is handled
separately as a single break). -/
def isLineBreak (c : Char) : Bool :=
  c == '\n' || c == '\r' || c == '\x0b' || c == '\x0c' ||
  c == '\x1c' || c == '\x1d' || c == '\x1e' || c == '\x85' ||
  c == ' ' || c == ' '

/-- Python `str.lstrip()`. -/
def pyLstrip (s : Str) : Str := s.dropWhile pyIsSpace

/-- Python `str.rstrip()`. -/
def pyRstrip (s : Str) : Str := (s.reverse.dropWhile pyIsSpace).reverse

/-- Python `str.strip()`. -/
def pyStrip (s : Str) : Str := pyRstrip (pyLstrip s)

/-- Python `str.replace('\r\n', '\n')`: left-to-right, non-overlapping. -/
def replaceCRLF : Str → Str
  | [] => []
  | [c] => [c]
  | c :: d :: rest =>
    if c = '\r' ∧ d = '\n' then '\n' :: replaceCRLF rest
    else c :: replaceCRLF (d :: rest)

/-- Accumulator pass splitting on single break characters; with CRLF
already collapsed this gives Python `str.splitlines()`. -/
def splitBreaksAux : Str → Str → List Str
  | [], acc => if acc = [] then [] else [acc.reverse]
  | c :: rest, acc =>
    if isLineBreak c then acc.reverse :: splitBreaksAux rest []
    else splitBreaksAux rest (c :: acc)

/-- Python `str.splitlines()`. -/
def splitlines (s : Str) : List Str := splitBreaksAux (replaceCRLF s) []

/-- Python `str.replace('\t', '  ')`: every tab becomes two spaces. -/
def expandTabs : Str → Str
  | [] => []
  | c :: rest => (if c = '\t' then [' ', ' '] else [c]) ++ expandTabs rest

/-- Number of bytes of one character under UTF-8. -/
def utf8Len (c : Char) : Nat :=
  if c.toNat < 0x80 then 1 else if c.toNat < 0x800 then 2
  else if c.toNat < 0x10000 then 3 else 4

/-- Python `len(s.encode('utf-8'))`. -/
def utf8Bytes (s : Str) : Nat := (s.map utf8Len).foldl (· + ·) 0

/-- Resolve a Python list subscript (negative indices count from the
end); `none` is an IndexError. -/
def pyResolve (len : Nat) (i : Int) : Option Nat :=
  if 0 ≤ i then (if i < (len : Int) then some i.toNat else none)
  else (if 0 ≤ (len : Int) + i then some ((len : Int) + i).toNat else none)

/-- Value of a non-empty all-digit string, `none` otherwise. -/
def digitsToNat? (ds : Str) : Option Nat :=
  if ds ≠ [] ∧ ds.all (fun c => c.isDigit) then
    some (ds.foldl (fun a c => a * 10 + (c.toNat - 48)) 0)
  else none

/-- Python `int(s)` on base-10 literals: surrounding whitespace and one
sign are accepted, anything else raises (= `none`). -/
def pyInt (s : Str) : Option Int :=
  match pyStrip s with
  | '-' :: ds => (digitsToNat? ds).map (fun n => -(n : Int))
  | '+' :: ds => (digitsToNat? ds).map (fun n => (n : Int))
  | ds => (digitsToNat? ds).map (fun n => (n : Int))

/-- Python `pat in s` for strings: contiguous substring containment. -/
def containsSub (pat : Str) : Str → Bool
  | [] => pat.isPrefixOf []
  | c :: rest => pat.isPrefixOf (c :: rest) || containsSub pat rest

/-- The external YAML engine as seen through `validate_and_roundtrip`:
`(true, canonicalRoundtrip)` on success, `(false, errorString)` on a
`YAMLError`. -/
abbrev Validator := Str → Bool × Str

/-! ### KubeStructurer (`structurer.py`) -/

/-- `KubeStructurer._normalize_line_endings`: CRLF and lone CR to LF,
then `rstrip()` the whole text. -/
def normalizeLineEndings (yamlStr : Str) : Str :=
  pyRstrip ((replaceCRLF yamlStr).map (fun c => if c = '\r' then '\n' else c))

/-- Word characters of the anchor/alias pattern `[a-zA-Z0-9_-]`. -/
def isWordChar (c : Char) : Bool :=
  c.isAlpha || c.isDigit || c == '_' || c == '-'

/-- Head of the regex `[ \t]*[&*][a-zA-Z0-9_-]+` after the optional
space/tab run has been dropped. -/
def matchAnchorHead : Str → Bool
  | c :: d :: _ => (c == '&' || c == '*') && isWordChar d
  | _ => false

/-- `KubeStructurer._is_anchor_or_alias`: `re.match` of the anchor/alias
pattern against `line.strip()`. -/
def isAnchorOrAlias (line : Str) : Bool :=
  matchAnchorHead ((pyStrip line).dropWhile (fun c => c == ' ' || c == '\t'))

/-- `KubeStructurer._is_protected_structure`: directives, document
boundaries, anchors/aliases and block-scalar headers. -/
def isProtectedStructure (line : Str) : Bool :=
  let content := pyStrip line
  (chars "%YAML").isPrefixOf content || (chars "%TAG").isPrefixOf content ||
  (chars "---").isPrefixOf content || (chars "...").isPrefixOf content ||
  isAnchorOrAlias line ||
  (chars "|").isPrefixOf content || (chars ">").isPrefixOf content

/-- `KubeStructurer._extract_line`: parse `STRUCTURE_ERROR:L<n>:C<m>:...`
into a 0-based line index, `-1` when no location is parseable. -/
def extractLine (errorInfo : Str) : Int :=
  if (chars "STRUCTURE_ERROR:L").isPrefixOf errorInfo then
    let linePart := ((errorInfo.dropWhile (fun c => c != ':')).drop 1).takeWhile
      (fun c => c != ':')
    match pyInt (linePart.drop 1) with
    | some n => n - 1
    | none => -1
  else -1

/-- Prefix of a line before the first inline comment, i.e.
`re.split(r'\s+#', line)[0]`. -/
def commentSplitHead : Str → Str
  | [] => []
  | c :: rest =>
    if pyIsSpace c && ((rest.dropWhile pyIsSpace).head? == some '#') then []
    else c :: commentSplitHead rest

/-- Skip/return decision of one iteration of the parent-indent search:
`some indent` when the line is the nearest enclosing mapping key. -/
def parentKeyIndent? (l : Str) : Option Nat :=
  let rawContent := pyRstrip (commentSplitHead l)
  if pyStrip rawContent = [] ∨ (chars "#").isPrefixOf (pyStrip rawContent)
      ∨ isProtectedStructure rawContent then none
  else
    let content := pyLstrip rawContent
    if (chars ":").isSuffixOf rawContent ∧ ¬ (chars "- ").isPrefixOf content then
      some (rawContent.length - content.length)
    else none

/-- Descending scan of `_find_parent_indent`, from line `i` down to 0. -/
def findParentGo (lines : List Str) : Nat → Nat
  | 0 => (parentKeyIndent? (lines.getD 0 [])).getD 0
  | i + 1 =>
    match parentKeyIndent? (lines.getD (i + 1) []) with
    | some n => n
    | none => findParentGo lines i

/-- `KubeStructurer._find_parent_indent`: `range(err_line - 1, -1, -1)`
is empty when `err_line ≤ 0`, giving parent indent 0. -/
def findParentIndent (lines : List Str) (errLine : Int) : Nat :=
  if errLine ≤ 0 then 0 else findParentGo lines (errLine.toNat - 1)

/-- `KubeStructurer.auto_fix_indentation`.  An unlocalized error (line
`-1`) and an error line at or past the end return the text unchanged; a
protected (tab-expanded) target line is never rewritten; otherwise the
line is re-indented to parent + 2 when the rewrite condition fires.  A
negative error line other than `-1` subscripts from the end and can
raise IndexError (`.error`). -/
def autoFixIndentation (yamlStr errorInfo : Str) : Except Str Str :=
  let errLine := extractLine errorInfo
  if errLine = -1 then .ok yamlStr
  else
    let lines := splitlines yamlStr
    if (lines.length : Int) ≤ errLine then .ok yamlStr
    else
      match pyResolve lines.length errLine with
      | none => .error (chars "list index out of range")
      | some j =>
        let targetLine := expandTabs (lines.getD j [])
        if isProtectedStructure targetLine then .ok yamlStr
        else
          let currentIndent := targetLine.length - (pyLstrip targetLine).length
          let parentIndent := findParentIndent lines errLine
          let targetIndent :=
            if (chars "-").isPrefixOf (pyStrip targetLine) then parentIndent + 2
            else parentIndent + 2
          if currentIndent ≠ targetIndent ∨ targetLine.contains '\t'
              ∨ currentIndent % 2 ≠ 0 then
            let fixedLine :=
              pyRstrip (List.replicate targetIndent ' ' ++ pyLstrip targetLine)
            .ok (List.intercalate (chars "\n") (lines.set j fixedLine))
          else .ok yamlStr

/-- Loop body of `_process_single_doc`, with the remaining attempt budget
as fuel (`for attempt in range(3)` enters with fuel 3; the success status
of the iteration entered with fuel `fuel + 1` is attempt `3 - fuel`). -/
def singleDocLoop (V : Validator) : Nat → Str → Str → Except Str (Str × Str)
  | 0, current, _ => .ok (current, chars "STRUCTURE_FAIL")
  | fuel + 1, current, result =>
    match autoFixIndentation current result with
    | .error e => .error e
    | .ok fixedYaml =>
      match pyResolve (splitlines fixedYaml).length (extractLine result) with
      | none => .error (chars "list index out of range")
      | some j =>
        if isProtectedStructure ((splitlines fixedYaml).getD j []) then
          .ok (current, chars "STRUCTURE_PROTECTED_SKIP")
        else
          if (V fixedYaml).fst then
            .ok ((V fixedYaml).snd, chars "STRUCTURE_FIXED_" ++ Nat.toDigits 10 (3 - fuel))
          else singleDocLoop V fuel fixedYaml (V fixedYaml).snd

/-- `KubeStructurer._process_single_doc`. -/
def processSingleDoc (V : Validator) (yamlStr : Str) : Except Str (Str × Str) :=
  if (V yamlStr).fst then .ok ((V yamlStr).snd, chars "STRUCTURE_OK")
  else singleDocLoop V 3 yamlStr (V yamlStr).snd

/-- Splitter of `re.split(r'\n(?=---)', s)`: cut at every newline that is
immediately followed by `---` (the newline is consumed). -/
def splitMultiDocAux : Str → Str → List Str
  | [], acc => [acc.reverse]
  | '\n' :: rest, acc =>
    if (chars "---").isPrefixOf rest then acc.reverse :: splitMultiDocAux rest []
    else splitMultiDocAux rest ('\n' :: acc)
  | c :: rest, acc => splitMultiDocAux rest (c :: acc)

/-- The document fragments of a multi-document input. -/
def splitMultiDoc (s : Str) : List Str := splitMultiDocAux s []

/-- Per-fragment loop of `_process_multi_doc`: non-blank fragments run
through the single-document repair; statuses are dropped. -/
def multiDocGo (V : Validator) : List Str → Except Str (List Str)
  | [] => .ok []
  | doc :: rest =>
    if pyStrip doc ≠ [] then
      match processSingleDoc V doc with
      | .error e => .error e
      | .ok r =>
        match multiDocGo V rest with
        | .error e => .error e
        | .ok others => .ok (r.fst :: others)
    else multiDocGo V rest

/-- `KubeStructurer._process_multi_doc`: split, repair each fragment,
rejoin with a single canonical boundary. -/
def processMultiDoc (V : Validator) (yamlStr : Str) : Except Str Str :=
  match multiDocGo V (splitMultiDoc (pyStrip yamlStr)) with
  | .error e => .error e
  | .ok fixedDocs => .ok (List.intercalate (chars "\n---\n") fixedDocs)

/-- `KubeStructurer.process_yaml`: normalize line endings, branch on
multi-document input. -/
def processYaml (V : Validator) (lexerOutput : Str) : Except Str (Str × Str) :=
  let normalized := normalizeLineEndings lexerOutput
  if containsSub (chars "---") normalized
      ∧ (chars "---").isPrefixOf (pyStrip normalized) then
    match processMultiDoc V normalized with
    | .error e => .error e
    | .ok result => .ok (result, chars "MULTI_DOC_HANDLED")
  else processSingleDoc V normalized

/-! ### Healing report and result envelope (`pipeline.py`) -/

/-- One entry of the `changes` list of `full_healing_report`. -/
structure ChangeRecord where
  line : Nat
  original : Str
  fixed : Str
  indentOriginal : Nat
  indentFixed : Nat
  deriving Repr, DecidableEq

/-- The report dictionary (status and error keys are optional because
`full_healing_report` and `_error_response` build different shapes). -/
structure Report where
  status : Option Str
  totalLines : Nat
  linesChanged : Nat
  changes : List ChangeRecord
  error : Option Str
  deriving Repr, DecidableEq

/-- `KubeStructurer.full_healing_report`: positional line diff between
original input and final content. -/
def fullHealingReport (original finalC status : Str) : Report :=
  let originalLines := splitlines original
  let finalLines := splitlines finalC
  let changes := ((originalLines.zip finalLines).enum).filterMap
    (fun p =>
      if p.2.1 ≠ p.2.2 then
        some { line := p.1 + 1, original := p.2.1, fixed := p.2.2,
               indentOriginal := p.2.1.length - (pyLstrip p.2.1).length,
               indentFixed := p.2.2.length - (pyLstrip p.2.2).length }
      else none)
  { status := some status, totalLines := originalLines.length,
    linesChanged := changes.length, changes := changes, error := none }

/-- The result envelope returned by `heal_manifest` (the `input_type`
key and the report's `file_path` key, pure presentation data, are not
modelled). -/
structure Envelope where
  content : Str
  status : Str
  report : Report
  success : Bool
  partialHeal : Bool
  phase1Complete : Bool
  inputSizeBytes : Nat
  deriving Repr, DecidableEq

/-- `HealingPipeline._error_response`. -/
def errorResponse (content status error : Str) : Envelope :=
  { content := content, status := status,
    report := { status := none, totalLines := (splitlines content).length,
                linesChanged := 0, changes := [], error := some error },
    success := false, partialHeal := false, phase1Complete := false,
    inputSizeBytes := utf8Bytes content }

/-- The success statuses of `heal_manifest`. -/
def successStatuses : List Str :=
  [chars "STRUCTURE_OK", chars "STRUCTURE_FIXED_1", chars "STRUCTURE_FIXED_2",
   chars "STRUCTURE_FIXED_3", chars "MULTI_DOC_HANDLED"]

/-- The twelve status strings enumerated by the spec's status
vocabulary. -/
def statusVocabulary : List Str :=
  [chars "STRUCTURE_OK", chars "STRUCTURE_FIXED_1", chars "STRUCTURE_FIXED_2",
   chars "STRUCTURE_FIXED_3", chars "MULTI_DOC_HANDLED",
   chars "STRUCTURE_PROTECTED_SKIP", chars "STRUCTURE_FAIL",
   chars "MISSING_INPUT", chars "FILE_READ_ERROR", chars "FILE_TOO_LARGE",
   chars "EMPTY_INPUT", chars "PIPELINE_ERROR"]

/-- The ten status strings the pipeline returns verbatim (file-read and
pipeline faults carry a message suffix instead). -/
def exactStatuses : List Str :=
  [chars "STRUCTURE_OK", chars "STRUCTURE_FIXED_1", chars "STRUCTURE_FIXED_2",
   chars "STRUCTURE_FIXED_3", chars "MULTI_DOC_HANDLED",
   chars "STRUCTURE_PROTECTED_SKIP", chars "STRUCTURE_FAIL",
   chars "MISSING_INPUT", chars "FILE_TOO_LARGE", chars "EMPTY_INPUT"]

/-- The seven statuses of the structural repair phase. -/
def structStatuses : List Str :=
  [chars "STRUCTURE_OK", chars "STRUCTURE_FIXED_1", chars "STRUCTURE_FIXED_2",
   chars "STRUCTURE_FIXED_3", chars "MULTI_DOC_HANDLED",
   chars "STRUCTURE_PROTECTED_SKIP", chars "STRUCTURE_FAIL"]

/-- Body of `HealingPipeline.heal_manifest` once the effective raw
content has been resolved: the size and blank-input guards, then
Phase 1.1 (lexer), Phase 1.2 (structurer) and the envelope, with a
raised exception from the repair phase caught and turned into a
`PIPELINE_ERROR` response whose status carries the first 100 characters
of the message, exactly as in the source. -/
def healManifestCore (V : Validator) (L : Str → Str) (maxSizeMb : Nat)
    (rawContent : Str) : Envelope :=
  if utf8Bytes rawContent > maxSizeMb * 1024 * 1024 then
    errorResponse (rawContent.take 1000) (chars "FILE_TOO_LARGE")
      (chars "File exceeds size limit")
  else if rawContent = [] ∨ pyStrip rawContent = [] then
    errorResponse [] (chars "EMPTY_INPUT") (chars "No input provided")
  else
    let lexedContent := L rawContent
    match processYaml V lexedContent with
    | .error e =>
      errorResponse rawContent (chars "PIPELINE_ERROR: " ++ e.take 100) e
    | .ok (finalYaml, status) =>
      { content := finalYaml, status := status,
        report := fullHealingReport rawContent finalYaml status,
        success := decide (status ∈ successStatuses),
        partialHeal := (chars "STRUCTURE_FAIL").isPrefixOf status
          && decide (finalYaml ≠ lexedContent)
          && decide (pyStrip finalYaml ≠ []),
        phase1Complete := true,
        inputSizeBytes := utf8Bytes rawContent }

/-- `HealingPipeline.heal_manifest`.  `L` is the lexical normalizer
(`RawLexer.process_string`), `fileContent?` the outcome of reading the
optional file argument (`none` = no file given, `.error` = the read
raised); file content, when present, replaces the raw string argument. -/
def healManifest (V : Validator) (L : Str → Str) (maxSizeMb : Nat)
    (rawContent? : Option Str) (fileContent? : Option (Except Str Str)) :
    Envelope :=
  if rawContent?.isNone && fileContent?.isNone then
    errorResponse [] (chars "MISSING_INPUT") (chars "No content or file provided")
  else
    match fileContent? with
    | some (.error e) => errorResponse [] (chars "FILE_READ_ERROR: " ++ e) e
    | some (.ok c) => healManifestCore V L maxSizeMb c
    | none => healManifestCore V L maxSizeMb (rawContent?.getD [])

/-! ### Concrete instantiations

The repository does not contain `kubecuro/healing/lexer.py`, and the
ruamel.yaml engine behind `validate_and_roundtrip` is an external
dependency, so concrete runs of the pipeline instantiate the lexer
parameter with a spec-modelled normalizer and the validator parameter
with small engines exhibiting documented engine behaviours (localized
`STRUCTURE_ERROR:L<n>:C<m>:` failures, unlocated failures, canonical
round-trips). -/

/-- Modelled from the spec: the Lexical Normalizer
(`RawLexer.process_string`, whose source file `healing/lexer.py` is
absent from the repository).  Per spec §4.1: tab characters outside
protected constructs expanded to the 2-space indentation unit, trailing
whitespace on each line removed, line count and line order unchanged. -/
def RawLexer.processString (s : Str) : Str :=
  List.intercalate (chars "\n") ((splitlines s).map
    (fun l => if isProtectedStructure l then l else pyRstrip (expandTabs l)))

/-- Engine accepting the first multi-document fragment and its canonical
form, rejecting everything else with an unlocated error. -/
def multiDocEngine : Validator := fun s =>
  if s = chars "---\na: 1" ∨ s = chars "a: 1" then (true, chars "a: 1")
  else (false, chars "STRUCTURE_ERROR:nomark")

/-- Engine reporting two successive localized errors on the documents of
the protected-skip scenario and accepting everything else. -/
def twoErrorEngine : Validator := fun s =>
  if s = chars "a:\n b: 1\n&x y" then (false, chars "STRUCTURE_ERROR:L2:C2:m1")
  else if s = chars "a:\n  b: 1\n&x y" then (false, chars "STRUCTURE_ERROR:L3:C1:m2")
  else (true, s)

/-- Engine reporting one localized error and accepting the repaired
document with a canonical round-trip. -/
def oneErrorEngine : Validator := fun s =>
  if s = chars "a:\nb: 1" then (false, chars "STRUCTURE_ERROR:L2:C1:m")
  else if s = chars "a:\n  b: 1" then (true, chars "canon")
  else (false, chars "STRUCTURE_ERROR:other")

/-- Engine reporting an error located past the end of the document. -/
def outOfRangeEngine : Validator := fun s =>
  if s = chars "a: 1" then (false, chars "STRUCTURE_ERROR:L99:C1:x") else (true, s)

/-- Engine always failing without a parseable source location. -/
def unlocatedEngine : Validator := fun _ =>
  (false, chars "STRUCTURE_ERROR:nomark")

/-- Conclusion of the bounded-convergence property: the terminal status
is one of the six loop outcomes, and each `STRUCTURE_FIXED_n` /
`STRUCTURE_FAIL` status is explained by a causally chained sequence of
exactly `n` (resp. 3) fix attempts, each validating the previous
attempt's output and feeding its error forward. -/
def convergenceSpec (V : Validator) (y c st : Str) : Prop :=
  (st = chars "STRUCTURE_OK" ∨ st = chars "STRUCTURE_PROTECTED_SKIP" ∨
   st = chars "STRUCTURE_FAIL" ∨ st = chars "STRUCTURE_FIXED_1" ∨
   st = chars "STRUCTURE_FIXED_2" ∨ st = chars "STRUCTURE_FIXED_3")
  ∧ (st = chars "STRUCTURE_FIXED_1" →
      (V y).fst = false ∧ ∃ f1, autoFixIndentation y (V y).snd = .ok f1 ∧
        (V f1).fst = true ∧ c = (V f1).snd)
  ∧ (st = chars "STRUCTURE_FIXED_2" →
      (V y).fst = false ∧ ∃ f1 f2, autoFixIndentation y (V y).snd = .ok f1 ∧
        (V f1).fst = false ∧ autoFixIndentation f1 (V f1).snd = .ok f2 ∧
        (V f2).fst = true ∧ c = (V f2).snd)
  ∧ (st = chars "STRUCTURE_FIXED_3" →
      (V y).fst = false ∧ ∃ f1 f2 f3, autoFixIndentation y (V y).snd = .ok f1 ∧
        (V f1).fst = false ∧ autoFixIndentation f1 (V f1).snd = .ok f2 ∧
        (V f2).fst = false ∧ autoFixIndentation f2 (V f2).snd = .ok f3 ∧
        (V f3).fst = true ∧ c = (V f3).snd)
  ∧ (st = chars "STRUCTURE_FAIL" →
      (V y).fst = false ∧ ∃ f1 f2 f3, autoFixIndentation y (V y).snd = .ok f1 ∧
        (V f1).fst = false ∧ autoFixIndentation f1 (V f1).snd = .ok f2 ∧
        (V f2).fst = false ∧ autoFixIndentation f2 (V f2).snd = .ok f3 ∧
        (V f3).fst = false ∧ c = f3)

/-- The tab-expanded failing line that `auto_fix_indentation` operates
on when the error locates line `j` of `s`. -/
def fixTargetLine (s : Str) (j : Nat) : Str :=
  expandTabs ((splitlines s).getD j [])

/-- The measured indentation width of the tab-expanded failing line. -/
def fixCurrentIndent (s : Str) (j : Nat) : Nat :=
  (fixTargetLine s j).length - (pyLstrip (fixTargetLine s j)).length

/-- The uniform target indent: parent indent plus one 2-space unit,
identical for mapping entries and sequence-item marker lines. -/
def fixTargetIndent (s : Str) (j : Nat) : Nat :=
  findParentIndent (splitlines s) (j : Int) + 2

/-- The rewritten line: the target indent's spaces, then the lstripped
tab-expanded line, with trailing whitespace dropped. -/
def fixedLineOf (s : Str) (j : Nat) : Str :=
  pyRstrip (List.replicate (fixTargetIndent s j) ' ' ++ pyLstrip (fixTargetLine s j))

/-! ### Basic facts about the repair primitives -/

/-- An unlocalized error (`extract_line` sentinel `-1`) makes
`auto_fix_indentation` return its input unchanged. -/
theorem autoFix_unlocalized {e : Str} (s : Str) (h : extractLine e = -1) :
    autoFixIndentation s e = .ok s := by
  unfold autoFixIndentation
  rw [h]
  simp

/-- Unfolding equation for one iteration of the repair loop. -/
theorem singleDocLoop_succ (V : Validator) (fuel : Nat) (current result : Str) :
    singleDocLoop V (fuel + 1) current result =
      (match autoFixIndentation current result with
       | .error e => .error e
       | .ok fixedYaml =>
         match pyResolve (splitlines fixedYaml).length (extractLine result) with
         | none => .error (chars "list index out of range")
         | some j =>
           if isProtectedStructure ((splitlines fixedYaml).getD j []) then
             .ok (current, chars "STRUCTURE_PROTECTED_SKIP")
           else
             if (V fixedYaml).fst then
               .ok ((V fixedYaml).snd,
                 chars "STRUCTURE_FIXED_" ++ Nat.toDigits 10 (3 - fuel))
             else singleDocLoop V fuel fixedYaml (V fixedYaml).snd) := rfl

/-- Resolving Python index `-1` on a non-empty list yields the last
position. -/
theorem pyResolve_neg_one {len : Nat} (h : len ≠ 0) :
    pyResolve len (-1) = some (len - 1) := by
  unfold pyResolve
  have h0 : ¬ (0 ≤ (-1 : Int)) := by omega
  have h1 : 0 ≤ (len : Int) + (-1) := by omega
  rw [if_neg h0, if_pos h1]
  congr 1
  omega

/-- C9 — For every document whose validation failure carries no
parseable line/column location, the failure is unlocalized and the
fix-application step returns its input text unchanged (hence unchanged
on every subsequent attempt as well). -/
theorem unlocalizedError_noFix {e : Str} (s : Str) (h : extractLine e = -1) :
    autoFixIndentation s e = .ok s :=
  autoFix_unlocalized s h

/-- Witness for C9 at a concrete unlocated engine error. -/
theorem unlocalizedError_noFix_witness :
    extractLine (chars "STRUCTURE_ERROR:nomark") = -1 ∧
      autoFixIndentation (chars "a:\nb: 1") (chars "STRUCTURE_ERROR:nomark") =
        .ok (chars "a:\nb: 1") :=
  ⟨by decide, unlocalizedError_noFix (chars "a:\nb: 1") (by decide)⟩

/-- C10 — When validation fails without a parseable location and the
last line of the document is protected, the single-document repair
returns `STRUCTURE_PROTECTED_SKIP`: the protected-line check indexes the
failing line with the unlocalized sentinel `-1`, which Python resolves
to the last line of the text. -/
theorem unlocalizedProtectedLastLine_skip (V : Validator) (y e : Str)
    (hv : V y = (false, e)) (hext : extractLine e = -1)
    (hne : splitlines y ≠ [])
    (hp : isProtectedStructure
      ((splitlines y).getD ((splitlines y).length - 1) []) = true) :
    processSingleDoc V y = .ok (y, chars "STRUCTURE_PROTECTED_SKIP") := by
  unfold processSingleDoc
  rw [hv]
  simp only [show (3 : Nat) = 2 + 1 from rfl, singleDocLoop_succ]
  rw [autoFix_unlocalized y hext, hext]
  have hres : pyResolve (splitlines y).length (-1) =
      some ((splitlines y).length - 1) :=
    pyResolve_neg_one (fun h0 => hne (List.length_eq_zero.mp h0))
  rw [List.getD_eq_getElem?_getD] at hp
  simp [hres, hp]

/-- Witness for C10: an anchor-only document with an always-unlocated
engine failure. -/
theorem unlocalizedProtectedLastLine_skip_witness :
    unlocatedEngine (chars "&a x") = (false, chars "STRUCTURE_ERROR:nomark") ∧
    extractLine (chars "STRUCTURE_ERROR:nomark") = -1 ∧
    splitlines (chars "&a x") ≠ [] ∧
    isProtectedStructure ((splitlines (chars "&a x")).getD
      ((splitlines (chars "&a x")).length - 1) []) = true ∧
    processSingleDoc unlocatedEngine (chars "&a x") =
      .ok (chars "&a x", chars "STRUCTURE_PROTECTED_SKIP") :=
  ⟨by decide, by decide, by decide, by decide,
    unlocalizedProtectedLastLine_skip unlocatedEngine (chars "&a x")
      (chars "STRUCTURE_ERROR:nomark") (by decide) (by decide) (by decide)
      (by decide)⟩

/-! ### Tab expansion and the protected-structure predicate -/

theorem expandTabs_append (a b : Str) :
    expandTabs (a ++ b) = expandTabs a ++ expandTabs b := by
  induction a with
  | nil => rfl
  | cons c t ih => simp [expandTabs, ih]

theorem expandTabs_cons_ne {c : Char} (hc : c ≠ '\t') (l : Str) :
    expandTabs (c :: l) = c :: expandTabs l := by
  simp [expandTabs, hc]

theorem expandTabs_eq_self {l : Str} (h : ∀ c ∈ l, c ≠ '\t') :
    expandTabs l = l := by
  induction l with
  | nil => rfl
  | cons c t ih =>
    rw [expandTabs_cons_ne (h c (by simp)), ih (fun d hd => h d (by simp [hd]))]

theorem not_mem_expandTabs_tab (l : Str) : ¬ ('\t' ∈ expandTabs l) := by
  induction l with
  | nil => simp [expandTabs]
  | cons c t ih =>
    rcases eq_or_ne c '\t' with hc | hc
    · subst hc
      simpa [expandTabs] using ih
    · rw [expandTabs_cons_ne hc]
      intro hmem
      rcases List.mem_cons.mp hmem with h | h
      · exact hc h.symm
      · exact ih h

theorem contains_expandTabs_tab (l : Str) :
    (expandTabs l).contains '\t' = false := by
  rw [← Bool.not_eq_true]
  intro h
  exact not_mem_expandTabs_tab l (List.mem_of_elem_eq_true h)

theorem dropWhile_expandTabs {p : Char → Bool} (hsp : p ' ' = true)
    (htab : p '\t' = true) (l : Str) :
    (expandTabs l).dropWhile p = expandTabs (l.dropWhile p) := by
  induction l with
  | nil => rfl
  | cons c t ih =>
    rcases eq_or_ne c '\t' with hc | hc
    · subst hc
      show ((' ' :: ' ' :: []) ++ expandTabs t).dropWhile p = _
      rw [List.cons_append, List.cons_append, List.nil_append,
        List.dropWhile_cons_of_pos hsp, List.dropWhile_cons_of_pos hsp, ih,
        List.dropWhile_cons_of_pos htab]
    · rw [expandTabs_cons_ne hc]
      cases hpc : p c with
      | true =>
        rw [List.dropWhile_cons_of_pos hpc, ih, List.dropWhile_cons_of_pos hpc]
      | false =>
        rw [List.dropWhile_cons_of_neg (by simp [hpc]),
          List.dropWhile_cons_of_neg (by simp [hpc]), expandTabs_cons_ne hc]

theorem pyLstrip_expandTabs (l : Str) :
    pyLstrip (expandTabs l) = expandTabs (pyLstrip l) :=
  dropWhile_expandTabs (by decide) (by decide) l

theorem expandTabs_reverse (l : Str) :
    expandTabs l.reverse = (expandTabs l).reverse := by
  induction l with
  | nil => rfl
  | cons c t ih =>
    have hone : expandTabs [c] = (if c = '\t' then [' ', ' '] else [c]) := by
      simp [expandTabs]
    have hrev : (if c = '\t' then [' ', ' '] else [c]).reverse =
        (if c = '\t' then [' ', ' '] else [c]) := by
      rcases eq_or_ne c '\t' with hc | hc <;> simp [hc]
    calc expandTabs (c :: t).reverse
        = expandTabs (t.reverse ++ [c]) := by simp
      _ = expandTabs t.reverse ++ expandTabs [c] := expandTabs_append _ _
      _ = (expandTabs t).reverse ++ (if c = '\t' then [' ', ' '] else [c]) := by
          rw [ih, hone]
      _ = (expandTabs (c :: t)).reverse := by
          rw [show expandTabs (c :: t) =
            (if c = '\t' then [' ', ' '] else [c]) ++ expandTabs t from rfl]
          rw [List.reverse_append, hrev]

theorem pyRstrip_expandTabs (l : Str) :
    pyRstrip (expandTabs l) = expandTabs (pyRstrip l) := by
  unfold pyRstrip
  rw [← expandTabs_reverse, dropWhile_expandTabs (by decide) (by decide),
    ← expandTabs_reverse]

theorem pyStrip_expandTabs (l : Str) :
    pyStrip (expandTabs l) = expandTabs (pyStrip l) := by
  rw [pyStrip, pyLstrip_expandTabs, pyRstrip_expandTabs, pyStrip]

theorem prefix_expandTabs {p m : Str} (hp : ∀ c ∈ p, c ≠ '\t')
    (h : p <+: m) : p <+: expandTabs m := by
  obtain ⟨t, rfl⟩ := h
  rw [expandTabs_append, expandTabs_eq_self hp]
  exact ⟨expandTabs t, rfl⟩

theorem isPrefixOf_expandTabs {p m : Str} (hp : ∀ c ∈ p, c ≠ '\t')
    (h : p.isPrefixOf m = true) : p.isPrefixOf (expandTabs m) = true :=
  List.isPrefixOf_iff_prefix.mpr
    (prefix_expandTabs hp (List.isPrefixOf_iff_prefix.mp h))

/-- A line satisfying the protected-structure predicate still satisfies
it after its tabs are expanded to spaces. -/
theorem isProtected_expandTabs {l : Str}
    (h : isProtectedStructure l = true) :
    isProtectedStructure (expandTabs l) = true := by
  simp only [isProtectedStructure, Bool.or_eq_true] at h ⊢
  rcases h with (((((h | h) | h) | h) | h) | h) | h
  · exact Or.inl (Or.inl (Or.inl (Or.inl (Or.inl (Or.inl (by
      rw [pyStrip_expandTabs]
      exact isPrefixOf_expandTabs (by decide) h))))))
  · exact Or.inl (Or.inl (Or.inl (Or.inl (Or.inl (Or.inr (by
      rw [pyStrip_expandTabs]
      exact isPrefixOf_expandTabs (by decide) h))))))
  · exact Or.inl (Or.inl (Or.inl (Or.inl (Or.inr (by
      rw [pyStrip_expandTabs]
      exact isPrefixOf_expandTabs (by decide) h)))))
  · exact Or.inl (Or.inl (Or.inl (Or.inr (by
      rw [pyStrip_expandTabs]
      exact isPrefixOf_expandTabs (by decide) h))))
  · refine Or.inl (Or.inl (Or.inr ?_))
    unfold isAnchorOrAlias at h ⊢
    rw [pyStrip_expandTabs, dropWhile_expandTabs (by decide) (by decide)]
    cases hu : (pyStrip l).dropWhile (fun c => c == ' ' || c == '\t') with
    | nil => rw [hu] at h; simp [matchAnchorHead] at h
    | cons c rest =>
      cases rest with
      | nil => rw [hu] at h; simp [matchAnchorHead] at h
      | cons d t =>
        rw [hu] at h
        have h' : (c = '&' ∨ c = '*') ∧ isWordChar d = true := by
          have := h
          simp only [matchAnchorHead, Bool.and_eq_true, Bool.or_eq_true,
            beq_iff_eq] at this
          exact this
        have hc : c ≠ '\t' := by rcases h'.1 with rfl | rfl <;> decide
        have hd : d ≠ '\t' := by
          intro hd
          rw [hd] at h'
          exact absurd h'.2 (by decide)
        rw [expandTabs_cons_ne hc, expandTabs_cons_ne hd]
        simp only [matchAnchorHead, Bool.and_eq_true, Bool.or_eq_true,
          beq_iff_eq]
        exact h'
  · exact Or.inl (Or.inr (by
      rw [pyStrip_expandTabs]
      exact isPrefixOf_expandTabs (by decide) h))
  · exact Or.inr (by
      rw [pyStrip_expandTabs]
      exact isPrefixOf_expandTabs (by decide) h)

theorem pyResolve_lt {len : Nat} {i : Int} {j : Nat}
    (h : pyResolve len i = some j) : j < len := by
  unfold pyResolve at h
  split at h
  · split at h
    · injection h with h'
      omega
    · cases h
  · split at h
    · injection h with h'
      omega
    · cases h

/-- C2 — The Repair Engine's indentation fix never rewrites a protected
line: either the text is returned unchanged, or exactly one line — whose
index differs from that of every protected line and which is itself
unprotected — is replaced, every other line (in particular every
protected one) being kept verbatim. -/
theorem protectedLines_neverRewritten (s e out : Str) (i : Nat)
    (hok : autoFixIndentation s e = .ok out)
    (hi : i < (splitlines s).length)
    (hp : isProtectedStructure ((splitlines s).getD i []) = true) :
    out = s ∨ ∃ j fixedLine, j < (splitlines s).length ∧ j ≠ i ∧
      isProtectedStructure ((splitlines s).getD j []) = false ∧
      out = List.intercalate (chars "\n") ((splitlines s).set j fixedLine) ∧
      ((splitlines s).set j fixedLine).getD i [] =
        (splitlines s).getD i [] := by
  simp only [autoFixIndentation, ite_self] at hok
  split at hok
  next => exact Or.inl (by injection hok with h; exact h.symm)
  next =>
    split at hok
    next => exact Or.inl (by injection hok with h; exact h.symm)
    next =>
      cases hres : pyResolve (splitlines s).length (extractLine e) with
      | none =>
        rw [hres] at hok
        simp at hok
      | some j =>
        rw [hres] at hok
        dsimp only at hok
        split at hok
        next hprot => exact Or.inl (by injection hok with h; exact h.symm)
        next hprot =>
          split at hok
          next hcond =>
            have hji : j ≠ i := by
              intro hji
              subst hji
              exact hprot (by simpa using isProtected_expandTabs hp)
            have hpf : isProtectedStructure ((splitlines s).getD j []) = false := by
              cases hb : isProtectedStructure ((splitlines s).getD j []) with
              | false => rfl
              | true => exact absurd (by simpa using isProtected_expandTabs hb) hprot
            refine Or.inr ⟨j,
              pyRstrip (List.replicate
                (findParentIndent (splitlines s) (extractLine e) + 2) ' '
                ++ pyLstrip (expandTabs ((splitlines s).getD j []))),
              pyResolve_lt hres, hji, hpf,
              (by injection hok with h; exact h.symm), ?_⟩
            rw [List.getD_eq_getElem?_getD, List.getElem?_set_ne hji,
              ← List.getD_eq_getElem?_getD]
          next hcond => exact Or.inl (by injection hok with h; exact h.symm)

/-- Witness for C2: a localized fix on an unprotected line leaves the
protected `---` line (index 0) untouched. -/
theorem protectedLines_neverRewritten_witness :
    autoFixIndentation (chars "---\nkey:\n x: 1")
        (chars "STRUCTURE_ERROR:L3:C2:m") = .ok (chars "---\nkey:\n  x: 1") ∧
    0 < (splitlines (chars "---\nkey:\n x: 1")).length ∧
    isProtectedStructure
      ((splitlines (chars "---\nkey:\n x: 1")).getD 0 []) = true ∧
    (chars "---\nkey:\n  x: 1" = chars "---\nkey:\n x: 1" ∨
      ∃ j fixedLine,
        j < (splitlines (chars "---\nkey:\n x: 1")).length ∧ j ≠ 0 ∧
        isProtectedStructure
          ((splitlines (chars "---\nkey:\n x: 1")).getD j []) = false ∧
        chars "---\nkey:\n  x: 1" = List.intercalate (chars "\n")
          ((splitlines (chars "---\nkey:\n x: 1")).set j fixedLine) ∧
        ((splitlines (chars "---\nkey:\n x: 1")).set j fixedLine).getD 0 [] =
          (splitlines (chars "---\nkey:\n x: 1")).getD 0 []) :=
  ⟨by rfl, by decide, by decide,
    protectedLines_neverRewritten (chars "---\nkey:\n x: 1")
      (chars "STRUCTURE_ERROR:L3:C2:m") (chars "---\nkey:\n  x: 1") 0
      (by rfl) (by decide) (by decide)⟩

/-! ### Strip lemmas and the fix-application characterization -/

theorem dropWhile_dropWhile (p : Char → Bool) (l : Str) :
    (l.dropWhile p).dropWhile p = l.dropWhile p := by
  induction l with
  | nil => rfl
  | cons c t ih =>
    cases hpc : p c with
    | true => rw [List.dropWhile_cons_of_pos hpc]; exact ih
    | false =>
      rw [List.dropWhile_cons_of_neg (by simp [hpc]),
        List.dropWhile_cons_of_neg (by simp [hpc])]

theorem pyRstrip_idem (l : Str) : pyRstrip (pyRstrip l) = pyRstrip l := by
  unfold pyRstrip
  rw [List.reverse_reverse, dropWhile_dropWhile]

theorem pyRstrip_append (a b : Str) :
    pyRstrip (a ++ b) =
      if pyRstrip b = [] then pyRstrip a else a ++ pyRstrip b := by
  unfold pyRstrip
  rw [List.reverse_append, List.dropWhile_append]
  by_cases hb : List.dropWhile pyIsSpace b.reverse = []
  · rw [if_pos (by simp [List.isEmpty_iff, hb]),
      if_pos (by simp [List.reverse_eq_nil_iff, hb])]
  · rw [if_neg (by simp [List.isEmpty_iff, hb]),
      if_neg (by simp [List.reverse_eq_nil_iff, hb]),
      List.reverse_append, List.reverse_reverse]

theorem dropWhile_replicate_space (n : Nat) :
    (List.replicate n ' ').dropWhile pyIsSpace = [] := by
  induction n with
  | zero => rfl
  | succ n ih =>
    rw [List.replicate_succ, List.dropWhile_cons_of_pos (by decide)]
    exact ih

theorem pyRstrip_replicate_space (n : Nat) :
    pyRstrip (List.replicate n ' ') = [] := by
  unfold pyRstrip
  rw [List.reverse_replicate, dropWhile_replicate_space, List.reverse_nil]

theorem pyLstrip_replicate_append (n : Nat) (x : Str) :
    pyLstrip (List.replicate n ' ' ++ x) = pyLstrip x := by
  induction n with
  | zero => simp [List.replicate]
  | succ n ih =>
    rw [List.replicate_succ, List.cons_append]
    unfold pyLstrip
    rw [List.dropWhile_cons_of_pos (by decide)]
    exact ih

theorem dropWhile_head_false {p : Char → Bool} {l : Str} {c : Char} {t : Str}
    (h : l.dropWhile p = c :: t) : p c = false := by
  induction l with
  | nil => cases h
  | cons a l' ih =>
    cases hpa : p a with
    | true => rw [List.dropWhile_cons_of_pos hpa] at h; exact ih h
    | false =>
      rw [List.dropWhile_cons_of_neg (by simp [hpa])] at h
      injection h with h1 h2
      rw [← h1]
      exact hpa

theorem pyRstrip_prefix (l : Str) : pyRstrip l <+: l := by
  unfold pyRstrip
  exact List.reverse_suffix.mp
    (by rw [List.reverse_reverse]; exact List.dropWhile_suffix pyIsSpace)

/-- Re-indenting and rstripping the lstripped line does not change its
stripped content. -/
theorem pyStrip_reindent (tgt : Nat) (T : Str) :
    pyStrip (pyRstrip (List.replicate tgt ' ' ++ pyLstrip T)) = pyStrip T := by
  rw [pyRstrip_append]
  by_cases h : pyRstrip (pyLstrip T) = []
  · rw [if_pos h, pyRstrip_replicate_space]
    have hT : pyStrip T = [] := h
    rw [hT]
    rfl
  · rw [if_neg h]
    show pyRstrip (pyLstrip (List.replicate tgt ' ' ++ pyRstrip (pyLstrip T)))
      = pyStrip T
    rw [pyLstrip_replicate_append]
    obtain ⟨c, t, hct⟩ : ∃ c t, pyRstrip (pyLstrip T) = c :: t := by
      cases hx : pyRstrip (pyLstrip T) with
      | nil => exact absurd hx h
      | cons c t => exact ⟨c, t, rfl⟩
    have hpref := pyRstrip_prefix (pyLstrip T)
    rw [hct] at hpref
    obtain ⟨rest, hrest⟩ := hpref
    have hlT : T.dropWhile pyIsSpace = c :: (t ++ rest) := by
      show pyLstrip T = _
      rw [← hrest, List.cons_append]
    have hc := dropWhile_head_false hlT
    have hfix : pyLstrip (c :: t) = c :: t := by
      unfold pyLstrip
      rw [List.dropWhile_cons_of_neg (by simp [hc])]
    rw [hct, hfix, ← hct, pyRstrip_idem]
    rfl

/-- C4 (amended) — For an unprotected failing line with a localized
error: the target indent is uniformly the parent indent plus one 2-space
unit; the text is rewritten exactly when the tab-expanded line's indent
differs from the target or is odd (the rewrite condition is evaluated on
the line with every tab already expanded to two spaces, so its
contains-a-tab disjunct never fires); a rewrite replaces line `j` by the
re-indented, rstripped expansion, whose stripped content equals that of
the tab-expanded line — and equals the original line's stripped content
exactly when the line contains no tab. -/
theorem fixApplication_characterization (s e : Str) (j : Nat)
    (hj : extractLine e = (j : Int))
    (hlen : j < (splitlines s).length)
    (hprot : isProtectedStructure (fixTargetLine s j) = false) :
    (autoFixIndentation s e =
      .ok (if fixCurrentIndent s j ≠ fixTargetIndent s j
            ∨ fixCurrentIndent s j % 2 ≠ 0
           then List.intercalate (chars "\n")
             ((splitlines s).set j (fixedLineOf s j))
           else s))
    ∧ pyStrip (fixedLineOf s j) = pyStrip (fixTargetLine s j)
    ∧ (((splitlines s).getD j []).contains '\t' = false →
        pyStrip (fixedLineOf s j) = pyStrip ((splitlines s).getD j [])) := by
  have h2 : pyStrip (fixedLineOf s j) = pyStrip (fixTargetLine s j) := by
    show pyStrip (pyRstrip (List.replicate (fixTargetIndent s j) ' '
      ++ pyLstrip (fixTargetLine s j))) = pyStrip (fixTargetLine s j)
    exact pyStrip_reindent _ _
  refine ⟨?_, h2, ?_⟩
  · simp only [autoFixIndentation, ite_self]
    rw [hj]
    rw [if_neg (by omega)]
    rw [if_neg (by omega)]
    have hres : pyResolve (splitlines s).length (j : Int) = some j := by
      unfold pyResolve
      rw [if_pos (by omega), if_pos (by omega)]
      rw [Int.toNat_natCast]
    rw [hres]
    dsimp only
    rw [if_neg (by simp [fixTargetLine] at hprot; simp [hprot])]
    simp only [contains_expandTabs_tab, Bool.false_eq_true, false_or]
    rw [apply_ite Except.ok]
    simp only [fixCurrentIndent, fixTargetIndent, fixTargetLine, fixedLineOf]
  · intro htab
    have hmem : ∀ c ∈ (splitlines s).getD j [], c ≠ '\t' := by
      intro c hc hceq
      subst hceq
      have := List.elem_eq_true_of_mem hc
      rw [show List.elem '\t' ((splitlines s).getD j [])
        = ((splitlines s).getD j []).contains '\t' from rfl, htab] at this
      cases this
    have hT : fixTargetLine s j = (splitlines s).getD j [] := by
      unfold fixTargetLine
      exact expandTabs_eq_self hmem
    rw [h2, hT]

/-- C4 counterexample — a failing line with an interior tab is rewritten
with the tab replaced by two spaces: the rewrite does not preserve the
line's trimmed content exactly. -/
theorem fixApplication_trimmedContent_cex :
    autoFixIndentation (chars "p:\nx: a\tb") (chars "STRUCTURE_ERROR:L2:C1:m")
      = .ok (chars "p:\n  x: a  b") ∧
    pyStrip ((splitlines (chars "p:\nx: a\tb")).getD 1 []) = chars "x: a\tb" ∧
    pyStrip ((splitlines (chars "p:\n  x: a  b")).getD 1 []) = chars "x: a  b" ∧
    pyStrip ((splitlines (chars "p:\n  x: a  b")).getD 1 [])
      ≠ pyStrip ((splitlines (chars "p:\nx: a\tb")).getD 1 []) :=
  ⟨by rfl, by decide, by decide, by decide⟩

/-- Witness for C4 (amended) at a concrete localized error. -/
theorem fixApplication_characterization_witness :
    extractLine (chars "STRUCTURE_ERROR:L2:C1:m") = ((1 : Nat) : Int) ∧
    1 < (splitlines (chars "p:\nx: 1")).length ∧
    isProtectedStructure (fixTargetLine (chars "p:\nx: 1") 1) = false ∧
    ((autoFixIndentation (chars "p:\nx: 1") (chars "STRUCTURE_ERROR:L2:C1:m") =
      .ok (if fixCurrentIndent (chars "p:\nx: 1") 1
              ≠ fixTargetIndent (chars "p:\nx: 1") 1
            ∨ fixCurrentIndent (chars "p:\nx: 1") 1 % 2 ≠ 0
           then List.intercalate (chars "\n")
             ((splitlines (chars "p:\nx: 1")).set 1
               (fixedLineOf (chars "p:\nx: 1") 1))
           else chars "p:\nx: 1"))
     ∧ pyStrip (fixedLineOf (chars "p:\nx: 1") 1)
        = pyStrip (fixTargetLine (chars "p:\nx: 1") 1)
     ∧ (((splitlines (chars "p:\nx: 1")).getD 1 []).contains '\t' = false →
        pyStrip (fixedLineOf (chars "p:\nx: 1") 1)
          = pyStrip ((splitlines (chars "p:\nx: 1")).getD 1 []))) :=
  ⟨by decide, by decide, by decide,
    fixApplication_characterization (chars "p:\nx: 1")
      (chars "STRUCTURE_ERROR:L2:C1:m") 1 (by decide) (by decide) (by decide)⟩

/-! ### Bounded convergence of the repair loop -/

theorem singleDocLoop_zero (V : Validator) (current result : Str) :
    singleDocLoop V 0 current result =
      .ok (current, chars "STRUCTURE_FAIL") := rfl

/-- C3 — The repair loop performs at most 3 fix attempts: the terminal
status is one of the six loop outcomes, `STRUCTURE_FIXED_n` means
validation succeeded on exactly the n-th attempt of a causally chained
sequence (each attempt fixing the previous attempt's output using the
previous attempt's error), and `STRUCTURE_FAIL` returns the best-effort
text of the third attempt after all three chained attempts failed. -/
theorem repairLoop_boundedConvergence (V : Validator) (y c st : Str)
    (h : processSingleDoc V y = .ok (c, st)) :
    convergenceSpec V y c st := by
  unfold convergenceSpec
  unfold processSingleDoc at h
  by_cases hv : (V y).fst = true
  · rw [if_pos hv] at h
    rw [Except.ok.injEq, Prod.mk.injEq] at h
    obtain ⟨hc, hst⟩ := h
    subst hst
    exact ⟨Or.inl rfl,
      fun habs => absurd habs (by decide), fun habs => absurd habs (by decide),
      fun habs => absurd habs (by decide), fun habs => absurd habs (by decide)⟩
  · rw [if_neg hv] at h
    have hv' : (V y).fst = false := by revert hv; cases (V y).fst <;> simp
    rw [show (3 : Nat) = 2 + 1 from rfl, singleDocLoop_succ] at h
    cases ha1 : autoFixIndentation y (V y).snd with
    | error e1 => rw [ha1] at h; simp at h
    | ok f1 =>
      rw [ha1] at h
      dsimp only at h
      cases hr1 : pyResolve (splitlines f1).length (extractLine (V y).snd) with
      | none => rw [hr1] at h; simp at h
      | some j1 =>
        rw [hr1] at h
        dsimp only at h
        split at h
        next hp1 =>
          rw [Except.ok.injEq, Prod.mk.injEq] at h
          obtain ⟨hc, hst⟩ := h
          subst hst
          exact ⟨Or.inr (Or.inl rfl),
            fun habs => absurd habs (by decide),
            fun habs => absurd habs (by decide),
            fun habs => absurd habs (by decide),
            fun habs => absurd habs (by decide)⟩
        next hp1 =>
          by_cases hv1 : (V f1).fst = true
          · rw [if_pos hv1] at h
            rw [Except.ok.injEq, Prod.mk.injEq] at h
            obtain ⟨hc, hst⟩ := h
            have hst' : st = chars "STRUCTURE_FIXED_1" := by
              rw [← hst]; decide
            subst hst'
            exact ⟨Or.inr (Or.inr (Or.inr (Or.inl rfl))),
              fun _ => ⟨hv', f1, rfl, hv1, hc.symm⟩,
              fun habs => absurd habs (by decide),
              fun habs => absurd habs (by decide),
              fun habs => absurd habs (by decide)⟩
          · rw [if_neg hv1] at h
            have hv1' : (V f1).fst = false := by
              revert hv1; cases (V f1).fst <;> simp
            rw [show (2 : Nat) = 1 + 1 from rfl, singleDocLoop_succ] at h
            cases ha2 : autoFixIndentation f1 (V f1).snd with
            | error e2 => rw [ha2] at h; simp at h
            | ok f2 =>
              rw [ha2] at h
              dsimp only at h
              cases hr2 : pyResolve (splitlines f2).length
                  (extractLine (V f1).snd) with
              | none => rw [hr2] at h; simp at h
              | some j2 =>
                rw [hr2] at h
                dsimp only at h
                split at h
                next hp2 =>
                  rw [Except.ok.injEq, Prod.mk.injEq] at h
                  obtain ⟨hc, hst⟩ := h
                  subst hst
                  exact ⟨Or.inr (Or.inl rfl),
                    fun habs => absurd habs (by decide),
                    fun habs => absurd habs (by decide),
                    fun habs => absurd habs (by decide),
                    fun habs => absurd habs (by decide)⟩
                next hp2 =>
                  by_cases hv2 : (V f2).fst = true
                  · rw [if_pos hv2] at h
                    rw [Except.ok.injEq, Prod.mk.injEq] at h
                    obtain ⟨hc, hst⟩ := h
                    have hst' : st = chars "STRUCTURE_FIXED_2" := by
                      rw [← hst]; decide
                    subst hst'
                    exact ⟨Or.inr (Or.inr (Or.inr (Or.inr (Or.inl rfl)))),
                      fun habs => absurd habs (by decide),
                      fun _ => ⟨hv', f1, f2, rfl, hv1', ha2, hv2, hc.symm⟩,
                      fun habs => absurd habs (by decide),
                      fun habs => absurd habs (by decide)⟩
                  · rw [if_neg hv2] at h
                    have hv2' : (V f2).fst = false := by
                      revert hv2; cases (V f2).fst <;> simp
                    rw [show (1 : Nat) = 0 + 1 from rfl, singleDocLoop_succ] at h
                    cases ha3 : autoFixIndentation f2 (V f2).snd with
                    | error e3 => rw [ha3] at h; simp at h
                    | ok f3 =>
                      rw [ha3] at h
                      dsimp only at h
                      cases hr3 : pyResolve (splitlines f3).length
                          (extractLine (V f2).snd) with
                      | none => rw [hr3] at h; simp at h
                      | some j3 =>
                        rw [hr3] at h
                        dsimp only at h
                        split at h
                        next hp3 =>
                          rw [Except.ok.injEq, Prod.mk.injEq] at h
                          obtain ⟨hc, hst⟩ := h
                          subst hst
                          exact ⟨Or.inr (Or.inl rfl),
                            fun habs => absurd habs (by decide),
                            fun habs => absurd habs (by decide),
                            fun habs => absurd habs (by decide),
                            fun habs => absurd habs (by decide)⟩
                        next hp3 =>
                          by_cases hv3 : (V f3).fst = true
                          · rw [if_pos hv3] at h
                            rw [Except.ok.injEq, Prod.mk.injEq] at h
                            obtain ⟨hc, hst⟩ := h
                            have hst' : st = chars "STRUCTURE_FIXED_3" := by
                              rw [← hst]; decide
                            subst hst'
                            exact ⟨Or.inr (Or.inr (Or.inr (Or.inr (Or.inr rfl)))),
                              fun habs => absurd habs (by decide),
                              fun habs => absurd habs (by decide),
                              fun _ => ⟨hv', f1, f2, f3, rfl, hv1', ha2, hv2',
                                ha3, hv3, hc.symm⟩,
                              fun habs => absurd habs (by decide)⟩
                          · rw [if_neg hv3] at h
                            have hv3' : (V f3).fst = false := by
                              revert hv3; cases (V f3).fst <;> simp
                            rw [singleDocLoop_zero] at h
                            rw [Except.ok.injEq, Prod.mk.injEq] at h
                            obtain ⟨hc, hst⟩ := h
                            subst hst
                            exact ⟨Or.inr (Or.inr (Or.inl rfl)),
                              fun habs => absurd habs (by decide),
                              fun habs => absurd habs (by decide),
                              fun habs => absurd habs (by decide),
                              fun _ => ⟨hv', f1, f2, f3, rfl, hv1', ha2, hv2',
                                ha3, hv3', hc.symm⟩⟩

/-- Witness for C3: an engine fixing a concrete document on the first
attempt, with the chained attempt record extracted by the theorem. -/
theorem repairLoop_boundedConvergence_witness :
    processSingleDoc oneErrorEngine (chars "a:\nb: 1") =
      .ok (chars "canon", chars "STRUCTURE_FIXED_1") ∧
    convergenceSpec oneErrorEngine (chars "a:\nb: 1") (chars "canon")
      (chars "STRUCTURE_FIXED_1") :=
  ⟨by rfl, repairLoop_boundedConvergence oneErrorEngine (chars "a:\nb: 1")
    (chars "canon") (chars "STRUCTURE_FIXED_1") (by rfl)⟩

/-! ### Round-trip of success statuses -/

/-- Any loop outcome other than `STRUCTURE_FAIL` / `STRUCTURE_PROTECTED_SKIP`
returns a canonical output of the validator. -/
theorem singleDocLoop_success_source (V : Validator) :
    ∀ fuel current result c st,
      singleDocLoop V fuel current result = .ok (c, st) →
      st ≠ chars "STRUCTURE_FAIL" → st ≠ chars "STRUCTURE_PROTECTED_SKIP" →
      ∃ x, (V x).fst = true ∧ c = (V x).snd := by
  intro fuel
  induction fuel with
  | zero =>
    intro current result c st h hFAIL _
    rw [singleDocLoop_zero, Except.ok.injEq, Prod.mk.injEq] at h
    exact absurd h.2.symm hFAIL
  | succ fuel ih =>
    intro current result c st h hFAIL hSKIP
    rw [singleDocLoop_succ] at h
    cases ha : autoFixIndentation current result with
    | error e => rw [ha] at h; simp at h
    | ok f =>
      rw [ha] at h
      dsimp only at h
      cases hr : pyResolve (splitlines f).length (extractLine result) with
      | none => rw [hr] at h; simp at h
      | some j =>
        rw [hr] at h
        dsimp only at h
        split at h
        next hp =>
          rw [Except.ok.injEq, Prod.mk.injEq] at h
          exact absurd h.2.symm hSKIP
        next hp =>
          by_cases hvf : (V f).fst = true
          · rw [if_pos hvf, Except.ok.injEq, Prod.mk.injEq] at h
            exact ⟨f, hvf, h.1.symm⟩
          · rw [if_neg hvf] at h
            exact ih f (V f).snd c st h hFAIL hSKIP

/-- The statuses reachable from the repair loop with at most 3 attempts
of budget. -/
theorem singleDocLoop_status (V : Validator) :
    ∀ fuel, fuel ≤ 3 → ∀ current result c st,
      singleDocLoop V fuel current result = .ok (c, st) →
      st = chars "STRUCTURE_FAIL" ∨ st = chars "STRUCTURE_PROTECTED_SKIP" ∨
      st = chars "STRUCTURE_FIXED_1" ∨ st = chars "STRUCTURE_FIXED_2" ∨
      st = chars "STRUCTURE_FIXED_3" := by
  intro fuel
  induction fuel with
  | zero =>
    intro _ current result c st h
    rw [singleDocLoop_zero, Except.ok.injEq, Prod.mk.injEq] at h
    exact Or.inl h.2.symm
  | succ fuel ih =>
    intro hle current result c st h
    rw [singleDocLoop_succ] at h
    cases ha : autoFixIndentation current result with
    | error e => rw [ha] at h; simp at h
    | ok f =>
      rw [ha] at h
      dsimp only at h
      cases hr : pyResolve (splitlines f).length (extractLine result) with
      | none => rw [hr] at h; simp at h
      | some j =>
        rw [hr] at h
        dsimp only at h
        split at h
        next hp =>
          rw [Except.ok.injEq, Prod.mk.injEq] at h
          exact Or.inr (Or.inl h.2.symm)
        next hp =>
          by_cases hvf : (V f).fst = true
          · rw [if_pos hvf, Except.ok.injEq, Prod.mk.injEq] at h
            have h2 := h.2.symm
            have hf : fuel = 0 ∨ fuel = 1 ∨ fuel = 2 := by omega
            rcases hf with rfl | rfl | rfl
            · exact Or.inr (Or.inr (Or.inr (Or.inr (by rw [h2]; decide))))
            · exact Or.inr (Or.inr (Or.inr (Or.inl (by rw [h2]; decide))))
            · exact Or.inr (Or.inr (Or.inl (by rw [h2]; decide)))
          · rw [if_neg hvf] at h
            exact ih (by omega) f (V f).snd c st h

/-- The statuses reachable from `process_yaml`. -/
theorem processYaml_status (V : Validator) (lex c st : Str)
    (h : processYaml V lex = .ok (c, st)) :
    st = chars "STRUCTURE_OK" ∨ st = chars "STRUCTURE_FIXED_1" ∨
    st = chars "STRUCTURE_FIXED_2" ∨ st = chars "STRUCTURE_FIXED_3" ∨
    st = chars "MULTI_DOC_HANDLED" ∨ st = chars "STRUCTURE_PROTECTED_SKIP" ∨
    st = chars "STRUCTURE_FAIL" := by
  simp only [processYaml] at h
  split at h
  · cases hm : processMultiDoc V (normalizeLineEndings lex) with
    | error e => rw [hm] at h; simp at h
    | ok r =>
      rw [hm] at h
      dsimp only at h
      rw [Except.ok.injEq, Prod.mk.injEq] at h
      exact Or.inr (Or.inr (Or.inr (Or.inr (Or.inl h.2.symm))))
  · unfold processSingleDoc at h
    by_cases hv : (V (normalizeLineEndings lex)).fst = true
    · rw [if_pos hv, Except.ok.injEq, Prod.mk.injEq] at h
      exact Or.inl h.2.symm
    · rw [if_neg hv] at h
      rcases singleDocLoop_status V 3 (by omega) _ _ c st h with
        h1 | h1 | h1 | h1 | h1
      · exact Or.inr (Or.inr (Or.inr (Or.inr (Or.inr (Or.inr h1)))))
      · exact Or.inr (Or.inr (Or.inr (Or.inr (Or.inr (Or.inl h1)))))
      · exact Or.inr (Or.inl h1)
      · exact Or.inr (Or.inr (Or.inl h1))
      · exact Or.inr (Or.inr (Or.inr (Or.inl h1)))

/-- The engine of the multi-document scenarios re-validates its own
canonical outputs (the stability every YAML round-trip engine has). -/
theorem multiDocEngine_stable :
    ∀ x, (multiDocEngine x).fst = true →
      (multiDocEngine (multiDocEngine x).snd).fst = true := by
  intro x hx
  unfold multiDocEngine at hx ⊢
  by_cases hmem : x = chars "---\na: 1" ∨ x = chars "a: 1"
  · rw [if_pos hmem]
    rw [if_pos hmem] at hx
    decide
  · rw [if_neg hmem] at hx
    exact absurd hx (by decide)

/-- C1 (amended) — For a validator whose canonical outputs re-validate,
every run reaching one of the four single-document success statuses
(`STRUCTURE_OK`, `STRUCTURE_FIXED_1/2/3`) returns content accepted by
the validator.  (`MULTI_DOC_HANDLED` gives no such guarantee: see the
counterexample.) -/
theorem singleDocSuccess_roundTrip (V : Validator) (lexOut c st : Str)
    (hstab : ∀ x, (V x).fst = true → (V (V x).snd).fst = true)
    (h : processYaml V lexOut = .ok (c, st))
    (hst : st = chars "STRUCTURE_OK" ∨ st = chars "STRUCTURE_FIXED_1" ∨
      st = chars "STRUCTURE_FIXED_2" ∨ st = chars "STRUCTURE_FIXED_3") :
    (V c).fst = true := by
  simp only [processYaml] at h
  split at h
  · cases hm : processMultiDoc V (normalizeLineEndings lexOut) with
    | error e => rw [hm] at h; simp at h
    | ok r =>
      rw [hm] at h
      dsimp only at h
      rw [Except.ok.injEq, Prod.mk.injEq] at h
      obtain ⟨hc, hstm⟩ := h
      rcases hst with h1 | h1 | h1 | h1 <;>
        (rw [← hstm] at h1; exact absurd h1 (by decide))
  · unfold processSingleDoc at h
    by_cases hv : (V (normalizeLineEndings lexOut)).fst = true
    · rw [if_pos hv, Except.ok.injEq, Prod.mk.injEq] at h
      rw [← h.1]
      exact hstab _ hv
    · rw [if_neg hv] at h
      have hFAIL : st ≠ chars "STRUCTURE_FAIL" := by
        rcases hst with h1 | h1 | h1 | h1 <;> (rw [h1]; decide)
      have hSKIP : st ≠ chars "STRUCTURE_PROTECTED_SKIP" := by
        rcases hst with h1 | h1 | h1 | h1 <;> (rw [h1]; decide)
      obtain ⟨x, hx, hcx⟩ :=
        singleDocLoop_success_source V 3 _ _ c st h hFAIL hSKIP
      rw [hcx]
      exact hstab x hx

/-- C1 counterexample — a multi-document input whose second fragment
stays invalid still gets the composite status `MULTI_DOC_HANDLED`,
classified as full success, while the returned content is rejected by
the engine. -/
theorem multiDocRoundTrip_cex :
    processYaml multiDocEngine (chars "---\na: 1\n---\nbad")
      = .ok (chars "a: 1\n---\n---\nbad", chars "MULTI_DOC_HANDLED") ∧
    chars "MULTI_DOC_HANDLED" ∈ successStatuses ∧
    (multiDocEngine (chars "a: 1\n---\n---\nbad")).fst = false :=
  ⟨by rfl, by decide, by decide⟩

/-- Witness for C1 (amended): a valid document reaching `STRUCTURE_OK`
has engine-accepted content. -/
theorem singleDocSuccess_roundTrip_witness :
    processYaml multiDocEngine (chars "a: 1") =
      .ok (chars "a: 1", chars "STRUCTURE_OK") ∧
    (multiDocEngine (chars "a: 1")).fst = true :=
  ⟨by rfl,
    singleDocSuccess_roundTrip multiDocEngine (chars "a: 1") (chars "a: 1")
      (chars "STRUCTURE_OK") multiDocEngine_stable (by rfl) (Or.inl rfl)⟩

/-! ### Envelope invariants of `heal_manifest` -/

theorem isPrefixOf_append (p x : Str) : p.isPrefixOf (p ++ x) = true :=
  List.isPrefixOf_iff_prefix.mpr (List.prefix_append p x)

/-- Post-guard form of `heal_manifest` on a resolved raw input. -/
theorem healManifest_core_eq_raw (V : Validator) (L : Str → Str) (m : Nat)
    (raw : Str) :
    healManifest V L m (some raw) none = healManifestCore V L m raw := by
  unfold healManifest
  rw [if_neg (by simp)]
  rfl

/-- Post-guard form of `heal_manifest` on a successfully read file. -/
theorem healManifest_core_eq_file (V : Validator) (L : Str → Str) (m : Nat)
    (raw? : Option Str) (c : Str) :
    healManifest V L m raw? (some (.ok c)) = healManifestCore V L m c := by
  unfold healManifest
  rw [if_neg (by simp)]

/-- The flags of the post-guard path are never both true. -/
theorem healManifestCore_success_partial (V : Validator) (L : Str → Str)
    (m : Nat) (raw : Str) :
    ((healManifestCore V L m raw).success &&
      (healManifestCore V L m raw).partialHeal) = false := by
  unfold healManifestCore
  split
  next => simp [errorResponse]
  next =>
    split
    next => simp [errorResponse]
    next =>
      dsimp only
      cases hp : processYaml V (L raw) with
      | error e => simp [errorResponse]
      | ok p =>
        obtain ⟨final, status⟩ := p
        dsimp only
        by_cases hmem : status ∈ successStatuses
        · have hpref : (chars "STRUCTURE_FAIL").isPrefixOf status = false := by
            simp only [successStatuses, List.mem_cons, List.not_mem_nil,
              or_false] at hmem
            rcases hmem with rfl | rfl | rfl | rfl | rfl <;> decide
          simp [hpref]
        · simp [hmem]

/-- C5 — On every path of `heal_manifest` (guards, error responses, and
the main path) the `success` and `partial_heal` flags are never both
true. -/
theorem success_partialHeal_mutuallyExclusive (V : Validator) (L : Str → Str)
    (m : Nat) (raw? : Option Str) (file? : Option (Except Str Str)) :
    ((healManifest V L m raw? file?).success &&
      (healManifest V L m raw? file?).partialHeal) = false := by
  cases file? with
  | some fr =>
    cases fr with
    | error e => simp [healManifest, errorResponse]
    | ok c =>
      rw [healManifest_core_eq_file]
      exact healManifestCore_success_partial V L m c
  | none =>
    cases raw? with
    | none => simp [healManifest, errorResponse]
    | some raw =>
      rw [healManifest_core_eq_raw]
      exact healManifestCore_success_partial V L m raw

/-- C6 (amended) — Once the guards pass, the `partial_heal` flag is
exactly: status starts with `STRUCTURE_FAIL`, and the final content
differs from the lexed input, and the final content is non-blank.  A
failure status that does not start with `STRUCTURE_FAIL` (such as
`STRUCTURE_PROTECTED_SKIP`) reports `partial_heal = false` even when the
content changed. -/
theorem partialHeal_requires_structureFail (V : Validator) (L : Str → Str)
    (m : Nat) (raw final st : Str)
    (hsize : utf8Bytes raw ≤ m * 1024 * 1024)
    (hnb : pyStrip raw ≠ [])
    (hp : processYaml V (L raw) = .ok (final, st)) :
    (healManifest V L m (some raw) none).partialHeal =
      ((chars "STRUCTURE_FAIL").isPrefixOf st
        && decide (final ≠ L raw) && decide (pyStrip final ≠ [])) := by
  rw [healManifest_core_eq_raw]
  unfold healManifestCore
  rw [if_neg (by omega)]
  rw [if_neg (by
    rintro (rfl | hh)
    · exact hnb (by decide)
    · exact hnb hh)]
  dsimp only
  rw [hp]

/-- C6 counterexample — a run ending in `STRUCTURE_PROTECTED_SKIP` after
one successful fix attempt: the terminal status is a failure status, the
final content differs from the normalized input and is non-blank, yet
`partial_heal` is false.  (The lexical normalizer, absent from the
repository, is instantiated with the spec-modelled `RawLexer.processString`,
which leaves this input unchanged.) -/
theorem partialHeal_protectedSkip_cex :
    RawLexer.processString (chars "a:\n b: 1\n&x y") = chars "a:\n b: 1\n&x y" ∧
    (healManifest twoErrorEngine RawLexer.processString 10
        (some (chars "a:\n b: 1\n&x y")) none).status
      = chars "STRUCTURE_PROTECTED_SKIP" ∧
    (healManifest twoErrorEngine RawLexer.processString 10
        (some (chars "a:\n b: 1\n&x y")) none).content
      = chars "a:\n  b: 1\n&x y" ∧
    (healManifest twoErrorEngine RawLexer.processString 10
        (some (chars "a:\n b: 1\n&x y")) none).content
      ≠ chars "a:\n b: 1\n&x y" ∧
    pyStrip (healManifest twoErrorEngine RawLexer.processString 10
        (some (chars "a:\n b: 1\n&x y")) none).content ≠ [] ∧
    (healManifest twoErrorEngine RawLexer.processString 10
        (some (chars "a:\n b: 1\n&x y")) none).partialHeal = false :=
  ⟨by rfl, by rfl, by rfl, by decide, by decide, by rfl⟩

/-- Witness for C6 (amended) on a concrete `STRUCTURE_FAIL` run. -/
theorem partialHeal_requires_structureFail_witness :
    utf8Bytes (chars "a: 1") ≤ 10 * 1024 * 1024 ∧
    pyStrip (chars "a: 1") ≠ [] ∧
    processYaml unlocatedEngine (RawLexer.processString (chars "a: 1"))
      = .ok (chars "a: 1", chars "STRUCTURE_FAIL") ∧
    (healManifest unlocatedEngine RawLexer.processString 10
        (some (chars "a: 1")) none).partialHeal =
      ((chars "STRUCTURE_FAIL").isPrefixOf (chars "STRUCTURE_FAIL")
        && decide (chars "a: 1" ≠ RawLexer.processString (chars "a: 1"))
        && decide (pyStrip (chars "a: 1") ≠ [])) :=
  ⟨by decide, by decide, by rfl,
    partialHeal_requires_structureFail unlocatedEngine RawLexer.processString
      10 (chars "a: 1") (chars "a: 1") (chars "STRUCTURE_FAIL")
      (by decide) (by decide) (by rfl)⟩

/-! ### Status vocabulary and phase-1 completion -/

theorem prefixed_not_mem (p e : Str) (ls : List Str)
    (hq : ∀ q ∈ ls, p.isPrefixOf q = false) : p ++ e ∉ ls := by
  intro hmem
  have h1 := hq _ hmem
  rw [isPrefixOf_append] at h1
  cases h1

/-- Statuses of the post-guard path: one of the ten exact strings or a
message-carrying `PIPELINE_ERROR: ` status. -/
theorem healManifestCore_status (V : Validator) (L : Str → Str) (m : Nat)
    (raw : Str) :
    (healManifestCore V L m raw).status ∈ exactStatuses ∨
    (chars "PIPELINE_ERROR: ").isPrefixOf
      (healManifestCore V L m raw).status = true := by
  unfold healManifestCore
  split
  next => exact Or.inl (by simp only [errorResponse]; decide)
  next =>
    split
    next => exact Or.inl (by simp only [errorResponse]; decide)
    next =>
      dsimp only
      cases hp : processYaml V (L raw) with
      | error e => exact Or.inr (isPrefixOf_append _ _)
      | ok p =>
        obtain ⟨final, status⟩ := p
        dsimp only
        left
        rcases processYaml_status V (L raw) final status hp with
          h | h | h | h | h | h | h <;> (subst h; decide)

/-- C7 (amended) — The envelope's status is one of the ten exact
vocabulary strings, or a `FILE_READ_ERROR: `-prefixed string carrying
the read failure's cause, or a `PIPELINE_ERROR: `-prefixed string
carrying the truncated internal fault message. -/
theorem status_inVocab_orPrefixed (V : Validator) (L : Str → Str)
    (m : Nat) (raw? : Option Str) (file? : Option (Except Str Str)) :
    (healManifest V L m raw? file?).status ∈ exactStatuses ∨
    (chars "FILE_READ_ERROR: ").isPrefixOf
      (healManifest V L m raw? file?).status = true ∨
    (chars "PIPELINE_ERROR: ").isPrefixOf
      (healManifest V L m raw? file?).status = true := by
  cases file? with
  | some fr =>
    cases fr with
    | error e =>
      have hred : healManifest V L m raw? (some (.error e)) =
          errorResponse [] (chars "FILE_READ_ERROR: " ++ e) e := by
        unfold healManifest
        rw [if_neg (by simp)]
      rw [hred]
      exact Or.inr (Or.inl (isPrefixOf_append _ _))
    | ok c =>
      rw [healManifest_core_eq_file]
      rcases healManifestCore_status V L m c with h | h
      · exact Or.inl h
      · exact Or.inr (Or.inr h)
  | none =>
    cases raw? with
    | none =>
      have hred : healManifest V L m none none = errorResponse []
          (chars "MISSING_INPUT") (chars "No content or file provided") := rfl
      rw [hred]
      exact Or.inl (by decide)
    | some raw =>
      rw [healManifest_core_eq_raw]
      rcases healManifestCore_status V L m raw with h | h
      · exact Or.inl h
      · exact Or.inr (Or.inr h)

/-- C7 counterexample — a failed file read yields the status
`FILE_READ_ERROR: boom`, which is not one of the twelve enumerated
vocabulary strings. -/
theorem statusVocabulary_cex :
    (healManifest outOfRangeEngine RawLexer.processString 10 none
        (some (.error (chars "boom")))).status = chars "FILE_READ_ERROR: boom" ∧
    chars "FILE_READ_ERROR: boom" ∉ statusVocabulary :=
  ⟨by rfl, by decide⟩

/-- Phase-1 completion of the post-guard path: true exactly when the
status is a structural-repair status (an internal fault reports a
`PIPELINE_ERROR: `-prefixed status with the flag false). -/
theorem healManifestCore_phase1 (V : Validator) (L : Str → Str) (m : Nat)
    (raw : Str) :
    (healManifestCore V L m raw).phase1Complete =
      decide ((healManifestCore V L m raw).status ∈ structStatuses) := by
  unfold healManifestCore
  split
  next => simp only [errorResponse]; rfl
  next =>
    split
    next => simp only [errorResponse]; rfl
    next =>
      dsimp only
      cases hp : processYaml V (L raw) with
      | error e =>
        have hnm : (chars "PIPELINE_ERROR: " ++ e.take 100) ∉ structStatuses :=
          prefixed_not_mem _ _ _ (by decide)
        simp [errorResponse, hnm]
      | ok p =>
        obtain ⟨final, status⟩ := p
        dsimp only
        have hmem : status ∈ structStatuses := by
          rcases processYaml_status V (L raw) final status hp with
            h | h | h | h | h | h | h <;> (subst h; decide)
        simp [hmem]

/-- C8 (amended) — `phase1_complete` is true exactly when the status is
one of the seven structural-repair statuses: it is false not only when a
guard rejected the input but also when an internal fault was caught
(`PIPELINE_ERROR: ...`), contrary to the claim. -/
theorem phase1Complete_iff_structStatus (V : Validator) (L : Str → Str)
    (m : Nat) (raw? : Option Str) (file? : Option (Except Str Str)) :
    (healManifest V L m raw? file?).phase1Complete =
      decide ((healManifest V L m raw? file?).status ∈ structStatuses) := by
  cases file? with
  | some fr =>
    cases fr with
    | error e =>
      have hred : healManifest V L m raw? (some (.error e)) =
          errorResponse [] (chars "FILE_READ_ERROR: " ++ e) e := by
        unfold healManifest
        rw [if_neg (by simp)]
      have hnm : (chars "FILE_READ_ERROR: " ++ e) ∉ structStatuses :=
        prefixed_not_mem _ _ _ (by decide)
      rw [hred]
      simp [errorResponse, hnm]
    | ok c =>
      rw [healManifest_core_eq_file]
      exact healManifestCore_phase1 V L m c
  | none =>
    cases raw? with
    | none =>
      have hred : healManifest V L m none none = errorResponse []
          (chars "MISSING_INPUT") (chars "No content or file provided") := rfl
      rw [hred]
      decide
    | some raw =>
      rw [healManifest_core_eq_raw]
      exact healManifestCore_phase1 V L m raw

/-- C8 counterexample — an engine error located past the end of the text
makes the protected-line check raise IndexError; the fault is caught as
`PIPELINE_ERROR: list index out of range` and the envelope reports
`phase1_complete = false`, not true. -/
theorem pipelineError_phase1_cex :
    (healManifest outOfRangeEngine RawLexer.processString 10
        (some (chars "a: 1")) none).status
      = chars "PIPELINE_ERROR: list index out of range" ∧
    (healManifest outOfRangeEngine RawLexer.processString 10
        (some (chars "a: 1")) none).phase1Complete = false :=
  ⟨by rfl, by rfl⟩

end Kubecuro
